import Mathlib

/-!
Shallow embedding of the `bank` package (type-state pattern for a bank
account). Account state is a phantom type parameter drawn from the closed
set {active, pending, closed}. Go methods mutate their receiver through a
pointer; here every sealed method returns the updated receiver next to its
result, so receiver mutation (or its absence) is observable in the model.
The Go `float64` balance is modelled by exact rationals: the properties in
question only use ordering, addition and subtraction.
-/

/-- State tags: the phantom marker structs `active`, `pending`, `closed`. -/
inductive StateTag where
  | active
  | pending
  | closed
  deriving DecidableEq

/-- Go: `type state interface { active | pending | closed }`. -/
def isState (s : StateTag) : Prop :=
  s = StateTag.active ∨ s = StateTag.pending ∨ s = StateTag.closed

/-- Go: `type pendingOrClosed interface { pending | closed }`, the bound of
`CanActivate` and so the constraint of the public `Activate`. -/
def pendingOrClosed (s : StateTag) : Prop :=
  s = StateTag.pending ∨ s = StateTag.closed

/-- The bound `[T active]` shared by `CanDeposit`, `CanWithdraw`, `CanClose`
and `CanWithdrawAndClose`: the tag must be exactly `active`. -/
def activeOnly (s : StateTag) : Prop :=
  s = StateTag.active

/-- Go: `type Account[State state] struct { ID string; Balance float64 }`. -/
structure Account (s : StateTag) where
  ID : String
  Balance : ℚ
  deriving DecidableEq

/-- Go sealed method `deposit`: `a.Balance += amount`. The receiver type
parameter `ActiveState` in the source is only a name, so the method exists
at every tag; the result is the updated receiver. -/
def Account.deposit {s : StateTag} (a : Account s) (amount : ℚ) : Account s :=
  { a with Balance := a.Balance + amount }

/-- Go sealed method `withdraw`: if `a.Balance >= amount` subtract and
return true, else return false without touching the balance. First
component is the Go return value, second the receiver after the call. -/
def Account.withdraw {s : StateTag} (a : Account s) (amount : ℚ) :
    Bool × Account s :=
  if a.Balance ≥ amount then (true, { a with Balance := a.Balance - amount })
  else (false, a)

/-- Go sealed method `close`: build a fresh `Account[closed]` copying ID and
Balance; the receiver is only read, so it comes back unchanged. -/
def Account.close {s : StateTag} (a : Account s) :
    Account StateTag.closed × Account s :=
  ({ ID := a.ID, Balance := a.Balance }, a)

/-- Go sealed method `activate`: build a fresh `Account[active]` copying ID
and Balance; the receiver is only read, so it comes back unchanged. -/
def Account.activate {s : StateTag} (a : Account s) :
    Account StateTag.active × Account s :=
  ({ ID := a.ID, Balance := a.Balance }, a)

/-- Go universal accessor `GetBalance`. -/
def Account.GetBalance {s : StateTag} (a : Account s) : ℚ :=
  a.Balance

/-- Go universal accessor `GetID`. -/
def Account.GetID {s : StateTag} (a : Account s) : String :=
  a.ID

/-- Public `Deposit[T active, A CanDeposit[T]]`: the constraint pins the tag
to `active`, so the embedding is typed at that index only. -/
def Deposit (acc : Account StateTag.active) (amount : ℚ) :
    Account StateTag.active :=
  acc.deposit amount

/-- Public `Withdraw[T active, A CanWithdraw[T]]`: forwards to the sealed
`withdraw`, returning its boolean and the receiver after the call. -/
def Withdraw (acc : Account StateTag.active) (amount : ℚ) :
    Bool × Account StateTag.active :=
  acc.withdraw amount

/-- Public `WithdrawAndClose[T active, A CanWithdrawAndClose[T]]`:
`acc.withdraw(amount)` with the boolean discarded, then `acc.close()` on the
(possibly mutated) receiver. First component is the Go return value, second
the source account after the call. -/
def WithdrawAndClose (acc : Account StateTag.active) (amount : ℚ) :
    Account StateTag.closed × Account StateTag.active :=
  ((acc.withdraw amount).2).close

/-- Public `Close[T active, A CanClose[T]]`. -/
def Close (acc : Account StateTag.active) :
    Account StateTag.closed × Account StateTag.active :=
  acc.close

/-- Public `Activate[T pendingOrClosed, A CanActivate[T]]`: the constraint
is carried as a proof argument that the body never inspects, mirroring the
absence of any runtime state check in the source. -/
def Activate {s : StateTag} (h : pendingOrClosed s) (acc : Account s) :
    Account StateTag.active × Account s :=
  acc.activate

/-- Go `ActivatePending`: the specialization of `Activate` at `pending`. -/
def ActivatePending (acc : Account StateTag.pending) :
    Account StateTag.active × Account StateTag.pending :=
  acc.activate

/-- Go `ActivateClosed`: the specialization of `Activate` at `closed`. -/
def ActivateClosed (acc : Account StateTag.closed) :
    Account StateTag.active × Account StateTag.closed :=
  acc.activate

/-- An account together with its (runtime-erased in Go) state tag, to talk
about sequences of public operations across transitions. -/
def World : Type :=
  Σ s : StateTag, Account s

/-- One public-operation call, as source-level syntax. -/
inductive Op where
  | deposit (amt : ℚ)
  | withdraw (amt : ℚ)
  | close
  | activate
  | withdrawAndClose (amt : ℚ)
  deriving DecidableEq

/-- Balance of the account a world carries. -/
def World.bal : World → ℚ :=
  fun w => w.2.Balance

/-- Apply one public operation to the tracked account. Operations whose
capability constraint the current tag does not satisfy do not exist for a
well-typed caller (they are compile-time errors in Go), so the world is
left as is. -/
def step : World → Op → World
  | ⟨StateTag.active, a⟩, Op.deposit amt => ⟨StateTag.active, Deposit a amt⟩
  | ⟨StateTag.active, a⟩, Op.withdraw amt => ⟨StateTag.active, (Withdraw a amt).2⟩
  | ⟨StateTag.active, a⟩, Op.close => ⟨StateTag.closed, (Close a).1⟩
  | ⟨StateTag.active, a⟩, Op.withdrawAndClose amt =>
      ⟨StateTag.closed, (WithdrawAndClose a amt).1⟩
  | ⟨StateTag.pending, a⟩, Op.activate =>
      ⟨StateTag.active, (Activate (Or.inl rfl) a).1⟩
  | ⟨StateTag.closed, a⟩, Op.activate =>
      ⟨StateTag.active, (Activate (Or.inr rfl) a).1⟩
  | w, _ => w

/-- Run a list of public operations from a starting world. -/
def run (w : World) : List Op → World
  | [] => w
  | op :: ops => run (step w op) ops

/-- C1: on an Active account, `Withdraw(amount)` returns true and leaves the
balance at `Balance - amount` exactly when `amount ≤ Balance`; otherwise it
returns false and the account is untouched. Failure is visible only in the
boolean: the embedded function is total, there is no panic path. -/
theorem Withdraw_success_iff (a : Account StateTag.active) (amount : ℚ) :
    ((Withdraw a amount).1 = true ↔ amount ≤ a.Balance) ∧
    (amount ≤ a.Balance → (Withdraw a amount).2.Balance = a.Balance - amount) ∧
    (a.Balance < amount → (Withdraw a amount).2 = a) := by
  rcases le_or_lt amount a.Balance with h | h
  · refine ⟨⟨fun _ => h, fun _ => ?_⟩, fun _ => ?_, fun hc => absurd h (not_le.mpr hc)⟩
    · simp [Withdraw, Account.withdraw, ge_iff_le, h]
    · simp [Withdraw, Account.withdraw, ge_iff_le, h]
  · have hn : ¬ a.Balance ≥ amount := not_le.mpr h
    refine ⟨⟨fun ht => ?_, fun hle => absurd hle (not_le.mpr h)⟩,
      fun hle => absurd hle (not_le.mpr h), fun _ => ?_⟩
    · simp [Withdraw, Account.withdraw, hn] at ht
    · simp [Withdraw, Account.withdraw, hn]

/-- C1 witness: concrete success and failure cases. -/
theorem Withdraw_success_iff_witness :
    (Withdraw ⟨"W-1", 10⟩ 4).1 = true ∧
    (Withdraw ⟨"W-1", 10⟩ 4).2.Balance = 6 ∧
    (Withdraw ⟨"W-1", 10⟩ 15).2 = (⟨"W-1", 10⟩ : Account StateTag.active) := by
  refine ⟨?_, ?_, ?_⟩
  · exact (Withdraw_success_iff ⟨"W-1", 10⟩ 4).1.mpr (by norm_num)
  · rw [(Withdraw_success_iff ⟨"W-1", 10⟩ 4).2.1 (by norm_num)]; norm_num
  · exact (Withdraw_success_iff ⟨"W-1", 10⟩ 15).2.2 (by norm_num)

/-- C2: `WithdrawAndClose(amount)` with `amount > Balance` coincides with
`Close` alone (result and source after the call), and with
`amount ≤ Balance` it coincides with `Withdraw(amount)` followed by `Close`
of the mutated source. The returned account is Closed by its Lean type. -/
theorem WithdrawAndClose_equiv (a : Account StateTag.active) (amount : ℚ) :
    (a.Balance < amount → WithdrawAndClose a amount = Close a) ∧
    (amount ≤ a.Balance →
      WithdrawAndClose a amount = Close (Withdraw a amount).2) := by
  constructor
  · intro h
    unfold WithdrawAndClose Close Account.withdraw
    rw [if_neg (not_le.mpr h)]
  · intro _
    rfl

/-- C2 witness: the equivalences at a concrete account and amounts. -/
theorem WithdrawAndClose_equiv_witness :
    WithdrawAndClose (⟨"A-2", 5⟩ : Account StateTag.active) 9 = Close ⟨"A-2", 5⟩ ∧
    WithdrawAndClose (⟨"A-2", 5⟩ : Account StateTag.active) 3
      = Close (Withdraw ⟨"A-2", 5⟩ 3).2 :=
  ⟨(WithdrawAndClose_equiv ⟨"A-2", 5⟩ 9).1 (by norm_num),
   (WithdrawAndClose_equiv ⟨"A-2", 5⟩ 3).2 (by norm_num)⟩

/-- C5: `Deposit(amount)` with `amount ≥ 0` adds the amount to the balance
and leaves the ID alone (it in fact does so for every amount). -/
theorem Deposit_adds (a : Account StateTag.active) (amount : ℚ)
    (h : 0 ≤ amount) :
    (Deposit a amount).Balance = a.Balance + amount ∧
    (Deposit a amount).ID = a.ID :=
  ⟨rfl, rfl⟩

/-- C5 witness: depositing 3 on balance 7 gives 10, same ID. -/
theorem Deposit_adds_witness :
    (Deposit ⟨"D-1", 7⟩ 3).Balance = 10 ∧ (Deposit ⟨"D-1", 7⟩ 3).ID = "D-1" := by
  have h := Deposit_adds ⟨"D-1", 7⟩ 3 (by norm_num)
  exact ⟨by rw [h.1]; norm_num, h.2⟩

/-- C6: `Close` on an Active account yields a Closed account with the same
ID and Balance, and the source account after the call equals the source
before it. -/
theorem Close_copies (a : Account StateTag.active) :
    (Close a).1.ID = a.ID ∧ (Close a).1.Balance = a.Balance ∧
    (Close a).2 = a :=
  ⟨rfl, rfl, rfl⟩

/-- C7: `Activate`, at every tag allowed by its constraint, yields an Active
account with the same ID and Balance and leaves the source unchanged. -/
theorem Activate_copies {s : StateTag} (h : pendingOrClosed s)
    (a : Account s) :
    (Activate h a).1.ID = a.ID ∧ (Activate h a).1.Balance = a.Balance ∧
    (Activate h a).2 = a :=
  ⟨rfl, rfl, rfl⟩

/-- C7 witness: activation of concrete Pending and Closed accounts. -/
theorem Activate_copies_witness :
    pendingOrClosed StateTag.pending ∧ pendingOrClosed StateTag.closed ∧
    (Activate (Or.inl rfl) (⟨"P-1", 4⟩ : Account StateTag.pending)).1.ID = "P-1" ∧
    (Activate (Or.inr rfl) (⟨"C-1", 8⟩ : Account StateTag.closed)).1.Balance = 8 :=
  ⟨Or.inl rfl, Or.inr rfl,
   (Activate_copies (Or.inl rfl) ⟨"P-1", 4⟩).1,
   (Activate_copies (Or.inr rfl) ⟨"C-1", 8⟩).2.1⟩

/-- C8: the round trip Activate, Close, Activate from a Pending account
ends at an Active account with the original ID and Balance. -/
theorem roundtrip_pending (p : Account StateTag.pending) :
    (Activate (Or.inr rfl)
      ((Close ((Activate (Or.inl rfl) p).1)).1)).1.ID = p.ID ∧
    (Activate (Or.inr rfl)
      ((Close ((Activate (Or.inl rfl) p).1)).1)).1.Balance = p.Balance :=
  ⟨rfl, rfl⟩

/-- C9: `WithdrawAndClose` acts on the source through its pointer: after the
call the source balance is reduced by the amount when it was covered and
unchanged otherwise, the source ID is untouched, and the Closed copy is
taken from the source after the withdrawal. -/
theorem WithdrawAndClose_mutates_source (a : Account StateTag.active)
    (amount : ℚ) :
    (amount ≤ a.Balance →
      (WithdrawAndClose a amount).2.Balance = a.Balance - amount) ∧
    (a.Balance < amount →
      (WithdrawAndClose a amount).2.Balance = a.Balance) ∧
    (WithdrawAndClose a amount).2.ID = a.ID ∧
    (WithdrawAndClose a amount).1.Balance
      = (WithdrawAndClose a amount).2.Balance := by
  unfold WithdrawAndClose Account.withdraw Account.close
  rcases le_or_lt amount a.Balance with h | h
  · rw [if_pos (ge_iff_le.mpr h)]
    exact ⟨fun _ => rfl, fun hc => absurd h (not_le.mpr hc), rfl, rfl⟩
  · rw [if_neg (not_le.mpr h)]
    exact ⟨fun hle => absurd hle (not_le.mpr h), fun _ => rfl, rfl, rfl⟩

/-- C9 witness: concrete covered and uncovered withdrawals. -/
theorem WithdrawAndClose_mutates_source_witness :
    (WithdrawAndClose (⟨"M-1", 10⟩ : Account StateTag.active) 4).2.Balance = 6 ∧
    (WithdrawAndClose (⟨"M-1", 10⟩ : Account StateTag.active) 12).2.Balance = 10 ∧
    (WithdrawAndClose (⟨"M-1", 10⟩ : Account StateTag.active) 4).2.ID = "M-1" := by
  refine ⟨?_, ?_, (WithdrawAndClose_mutates_source ⟨"M-1", 10⟩ 4).2.2.1⟩
  · rw [(WithdrawAndClose_mutates_source ⟨"M-1", 10⟩ 4).1 (by norm_num)]; norm_num
  · exact (WithdrawAndClose_mutates_source ⟨"M-1", 10⟩ 12).2.1 (by norm_num)

/-- C10: the specializations agree with the generic `Activate` pointwise,
on the returned Active account and on the source after the call. -/
theorem specializations_match_Activate :
    (∀ p : Account StateTag.pending, ActivatePending p = Activate (Or.inl rfl) p) ∧
    (∀ c : Account StateTag.closed, ActivateClosed c = Activate (Or.inr rfl) c) :=
  ⟨fun _ => rfl, fun _ => rfl⟩

/-- C3 counterexample: from an Active account of non-negative balance, the
single public call Deposit(-1) drives the balance below zero: no amount
validation exists in the source. -/
theorem balance_nonneg_counterexample :
    0 ≤ (⟨"N-1", 0⟩ : Account StateTag.active).Balance ∧
    (run ⟨StateTag.active, ⟨"N-1", 0⟩⟩ [Op.deposit (-1)]).bal < 0 := by
  constructor
  · norm_num
  · show ((0 : ℚ) + (-1)) < 0
    norm_num

/-- One public operation keeps the balance non-negative, as long as it is
not a deposit of a negative amount. -/
theorem step_bal_nonneg (w : World) (op : Op) (h0 : 0 ≤ w.bal)
    (hdep : ∀ amt, op = Op.deposit amt → 0 ≤ amt) :
    0 ≤ (step w op).bal := by
  rcases w with ⟨s, a⟩
  cases s <;> cases op <;>
    simp only [step, World.bal, Deposit, Withdraw, WithdrawAndClose, Close,
      Activate, Account.deposit, Account.withdraw, Account.close,
      Account.activate] at h0 ⊢
  case active.deposit amt =>
    have := hdep amt rfl
    exact add_nonneg h0 this
  case active.withdraw amt =>
    split_ifs with h
    · simpa using sub_nonneg.mpr (ge_iff_le.mp h)
    · exact h0
  case active.withdrawAndClose amt =>
    split_ifs with h
    · simpa using sub_nonneg.mpr (ge_iff_le.mp h)
    · exact h0
  all_goals exact h0

/-- C3 amended: every sequence of public operations in which each Deposit
amount is non-negative keeps the balance non-negative, from any starting
state and any starting balance that is non-negative. (Withdraw needs no
such restriction: its own guard protects the balance.) Holding at every
step, the bound holds at all observable times. -/
theorem balance_nonneg_amended (ops : List Op) (w : World) (h0 : 0 ≤ w.bal)
    (hdep : ∀ amt, Op.deposit amt ∈ ops → 0 ≤ amt) :
    0 ≤ (run w ops).bal := by
  induction ops generalizing w with
  | nil => exact h0
  | cons op rest ih =>
      show 0 ≤ (run (step w op) rest).bal
      apply ih
      · exact step_bal_nonneg w op h0
          (fun amt h => hdep amt (h ▸ List.mem_cons_self op rest))
      · exact fun amt h => hdep amt (List.mem_cons_of_mem op h)

/-- C3 amended witness: a concrete run of deposit, withdraw, close and
reactivate from a Pending account. -/
theorem balance_nonneg_amended_witness :
    0 ≤ (run ⟨StateTag.pending, ⟨"S-1", 2⟩⟩
      [Op.activate, Op.deposit 5, Op.withdraw 3, Op.close, Op.activate]).bal := by
  apply balance_nonneg_amended
  · norm_num [World.bal]
  · intro amt h
    simp only [List.mem_cons, List.not_mem_nil, or_false] at h
    rcases h with h | h | h | h | h
    all_goals first
      | (injection h with h; rw [h]; norm_num)
      | exact absurd h (by simp)

/-- C4: the capability bounds read off the source accept exactly the states
the spec allows — `[T active]` (shared by CanDeposit, CanWithdraw, CanClose
and CanWithdrawAndClose) holds for `active` alone, `[T pendingOrClosed]`
(CanActivate) for exactly `pending` and `closed`, and the two are disjoint —
while the sealed operations never inspect the tag: at any two tags they map
equal fields to equal fields. Rejection itself is a typing fact, mirrored
here by the public functions being typed only at the allowed indices. -/
theorem capability_static (s t : StateTag) (id : String) (bal amount : ℚ) :
    (activeOnly s ↔ s = StateTag.active) ∧
    (pendingOrClosed s ↔ (s = StateTag.pending ∨ s = StateTag.closed)) ∧
    ((activeOnly s ∧ pendingOrClosed s) ↔ False) ∧
    ((Account.mk id bal : Account s).deposit amount).Balance
      = ((Account.mk id bal : Account t).deposit amount).Balance ∧
    ((Account.mk id bal : Account s).withdraw amount).1
      = ((Account.mk id bal : Account t).withdraw amount).1 ∧
    ((Account.mk id bal : Account s).withdraw amount).2.Balance
      = ((Account.mk id bal : Account t).withdraw amount).2.Balance ∧
    (Account.mk id bal : Account s).close.1
      = (Account.mk id bal : Account t).close.1 ∧
    (Account.mk id bal : Account s).activate.1
      = (Account.mk id bal : Account t).activate.1 := by
  refine ⟨Iff.rfl, Iff.rfl, ?_, rfl, ?_, ?_, rfl, rfl⟩
  · constructor
    · rintro ⟨ha, hp | hc⟩
      · exact StateTag.noConfusion (ha ▸ hp)
      · exact StateTag.noConfusion (ha ▸ hc)
    · exact False.elim
  · unfold Account.withdraw
    split_ifs <;> rfl
  · unfold Account.withdraw
    split_ifs <;> rfl
